import Mathlib

/-!
Verification of the Task-Management-API repository's specification.

Part 1: the Source Signature Scanner described in spec sections 3, 4.1 and 7.
The scanner's implementation is not present under src/ (only the FastAPI
template file task-test/main.py is), so the scanner is modelled from the
spec's words; every such definition is marked `Modelled from the spec:`.

Part 2: a shallow embedding of src/task-test/main.py, the FastAPI todo
application, with a trace semantics for sequences of requests.
-/

namespace Scanner

/-- Modelled from the spec: decorator expressions as the normalizer
distinguishes them (spec 4.1 rule 4) — a bare identifier, an attribute
access `X.Y` with an arbitrary base expression, a call expression
wrapping a callee (arguments are discarded and hence not modelled), and
any other unsupported shape. The scanner implementation is not in src/. -/
inductive DecoratorExpr where
  | ident (id : String)
  | attr (base : DecoratorExpr) (fieldName : String)
  | call (callee : DecoratorExpr)
  | unsupported
deriving DecidableEq, Repr

/-- Modelled from the spec: decorator-name normalization (spec 4.1 rule 4):
(a) a bare identifier yields that identifier; (b) an attribute access `X.Y`
yields "X.Y" when `X` is itself a bare identifier, otherwise the empty
string; (c) a call expression yields the name of the underlying callee,
discarding arguments; any unsupported shape degrades to the empty string. -/
def decoratorName : DecoratorExpr → String
  | .ident id => id
  | .attr (.ident x) y => x ++ "." ++ y
  | .attr _ _ => ""
  | .call callee => decoratorName callee
  | .unsupported => ""

/-- Modelled from the spec: the fixed set of HTTP verbs (spec 4.1 rule 5). -/
def httpVerbs : List String := ["get", "post", "put", "delete", "patch"]

/-- Modelled from the spec: the recognized route decorator names bound to
the `app` object (spec 4.1 rule 5). -/
def recognizedRouteNames : List String :=
  ["app.get", "app.post", "app.put", "app.delete", "app.patch"]

/-- Whether `suf` is a suffix of `s`, on the character sequences. -/
def hasSuffix (s suf : String) : Bool :=
  suf.data.isSuffixOf s.data

/-- Modelled from the spec: a normalized decorator name marks a route when
it ends in a `.verb` suffix for one of the HTTP verbs — "the match is on
the trailing `.verb` suffix, not the prefix" (spec 4.1 rule 5). -/
def isRouteName (s : String) : Bool :=
  httpVerbs.any (fun v => hasSuffix s ("." ++ v))

/-- Modelled from the spec: a definition is classified as a route when any
of its normalized decorator names is a recognized route marker. -/
def isRouteDecorators (decs : List DecoratorExpr) : Bool :=
  decs.any (fun d => isRouteName (decoratorName d))

mutual
/-- Modelled from the spec: the statement forms the scanner's traversal
distinguishes (spec 4.1): function definitions (synchronous or
asynchronous, with declared parameter names, decorators and a body),
class definitions, return statements (with or without a value), other
compound statements with nested children, and other simple statements. -/
inductive Stmt where
  | funcDef (fname : String) (params : List String) (isAsync : Bool)
      (decorators : List DecoratorExpr) (body : StmtList)
  | classDef (cname : String) (body : StmtList)
  | ret (hasValue : Bool)
  | block (children : StmtList)
  | simple

/-- Modelled from the spec: a sequence of statements (a body). -/
inductive StmtList where
  | nil
  | cons (head : Stmt) (tail : StmtList)
end

/-- View of a statement sequence as a plain list. -/
def StmtList.toList : StmtList → List Stmt
  | .nil => []
  | .cons s t => s :: t.toList

mutual
/-- Modelled from the spec: whether a statement contains, at any depth, a
return statement carrying a value (spec 4.1 rule 3). -/
def stmtHasValuedReturn : Stmt → Bool
  | .ret v => v
  | .funcDef _ _ _ _ body => stmtsHaveValuedReturn body
  | .classDef _ body => stmtsHaveValuedReturn body
  | .block children => stmtsHaveValuedReturn children
  | .simple => false

/-- Modelled from the spec: `stmtHasValuedReturn` over a body. -/
def stmtsHaveValuedReturn : StmtList → Bool
  | .nil => false
  | .cons s rest => stmtHasValuedReturn s || stmtsHaveValuedReturn rest
end

/-- A return statement that carries a value. -/
def isValuedReturn : Stmt → Bool
  | .ret v => v
  | _ => false

mutual
/-- All descendant nodes of a statement, the statement itself included. -/
def descendantsStmt : Stmt → List Stmt
  | .funcDef n ps a d body => .funcDef n ps a d body :: descendantsList body
  | .classDef n body => .classDef n body :: descendantsList body
  | .ret v => [.ret v]
  | .block children => .block children :: descendantsList children
  | .simple => [.simple]

/-- All descendant nodes of every statement of a body. -/
def descendantsList : StmtList → List Stmt
  | .nil => []
  | .cons s rest => descendantsStmt s ++ descendantsList rest
end

/-- Modelled from the spec: a FunctionRecord (spec 3) — name, ordered
parameter names, asynchronous flag, has-explicit-return flag, ordered
normalized decorator names. -/
structure FunctionRecord where
  name : String
  params : List String
  isAsync : Bool
  hasReturn : Bool
  decorators : List String
deriving DecidableEq, Repr

/-- Modelled from the spec: a MethodRecord (spec 3) — name, parameter
names excluding the implicit instance reference, async flag. -/
structure MethodRecord where
  name : String
  params : List String
  isAsync : Bool
deriving DecidableEq, Repr

/-- Modelled from the spec: a ClassRecord (spec 3) — name and the methods
of the class's immediate body. -/
structure ClassRecord where
  name : String
  methods : List MethodRecord
deriving DecidableEq, Repr

/-- Modelled from the spec: the SourceCatalogue (spec 3) — the three
ordered sequences produced from scanning one source file. -/
structure SourceCatalogue where
  functions : List FunctionRecord
  classes : List ClassRecord
  routes : List FunctionRecord
deriving DecidableEq, Repr

/-- Modelled from the spec: the record built for one function definition
(spec 4.1 rules 1-4). -/
def mkFunctionRecord (n : String) (ps : List String) (a : Bool)
    (decs : List DecoratorExpr) (body : StmtList) : FunctionRecord :=
  ⟨n, ps, a, stmtsHaveValuedReturn body, decs.map decoratorName⟩

/-- Modelled from the spec: drop the first declared parameter (the
implicit instance reference) only if at least one parameter is declared
(spec 4.1, class rule). -/
def dropSelf : List String → List String
  | [] => []
  | _ :: rest => rest

/-- Modelled from the spec: MethodRecords collected from a class's
immediate body (spec 4.1, class rule). -/
def classMethods : StmtList → List MethodRecord
  | .nil => []
  | .cons (.funcDef n ps a _ _) rest => ⟨n, dropSelf ps, a⟩ :: classMethods rest
  | .cons _ rest => classMethods rest

/-- Concatenation of two catalogues, sequence by sequence. -/
def catAppend (a b : SourceCatalogue) : SourceCatalogue :=
  ⟨a.functions ++ b.functions, a.classes ++ b.classes, a.routes ++ b.routes⟩

mutual
/-- Modelled from the spec: the depth-first traversal (spec 4.1). At a
function definition the record is classified into routes or functions by
its decorators and the traversal recurses into the body; at a class
definition a ClassRecord is collected from the immediate body and the
traversal continues into the class body; other compound statements are
traversed for nested definitions. -/
def scanStmt : Stmt → SourceCatalogue
  | .funcDef n ps a decs body =>
      let r := mkFunctionRecord n ps a decs body
      let sub := scanStmts body
      if isRouteDecorators decs then ⟨sub.functions, sub.classes, r :: sub.routes⟩
      else ⟨r :: sub.functions, sub.classes, sub.routes⟩
  | .classDef n body =>
      let sub := scanStmts body
      ⟨sub.functions, ⟨n, classMethods body⟩ :: sub.classes, sub.routes⟩
  | .block children => scanStmts children
  | .ret _ => ⟨[], [], []⟩
  | .simple => ⟨[], [], []⟩

/-- Modelled from the spec: the traversal over a statement sequence. -/
def scanStmts : StmtList → SourceCatalogue
  | .nil => ⟨[], [], []⟩
  | .cons s rest => catAppend (scanStmt s) (scanStmts rest)
end

mutual
/-- Number of function definitions in a statement, at any depth. -/
def countDefsStmt : Stmt → Nat
  | .funcDef _ _ _ _ body => 1 + countDefs body
  | .classDef _ body => countDefs body
  | .block children => countDefs children
  | .ret _ => 0
  | .simple => 0

/-- Number of function definitions in a body, at any depth. -/
def countDefs : StmtList → Nat
  | .nil => 0
  | .cons s rest => countDefsStmt s + countDefs rest
end

/-- Modelled from the spec: the error information the original parser
reports — message and position (spec 4.1 error conditions). -/
structure ParseErrorInfo where
  message : String
  line : Nat
  col : Nat
deriving DecidableEq, Repr

/-- Modelled from the spec: the scan-failure taxonomy entry for
unparsable input, the `SyntaxError` kind of spec 7, carrying the original
parser's message and position. -/
inductive ScanError where
  | parseFailure (message : String) (line : Nat) (col : Nat)
deriving DecidableEq, Repr

/-- Modelled from the spec: the scanner on a parse result — a failed
parse makes the whole scan fail with the `SyntaxError` kind carrying the
parser's message and position; a successful parse is traversed into a
catalogue (spec 4.1 error conditions). -/
def scanParsed : Except ParseErrorInfo StmtList → Except ScanError SourceCatalogue
  | .error e => .error (.parseFailure e.message e.line e.col)
  | .ok tree => .ok (scanStmts tree)

/-- Modelled from the spec: the tool invocation around the scanner
(spec 6): on scan failure exit with status 1 and write no output file; on
success exit 0 and write the emitted stub to the output path. The result
is the exit status and the list of written files (path, contents). -/
def runTool (parsed : Except ParseErrorInfo StmtList)
    (emit : SourceCatalogue → String) (outPath : String) :
    Nat × List (String × String) :=
  match scanParsed parsed with
  | .error _ => (1, [])
  | .ok cat => (0, [(outPath, emit cat)])

/-- The spec's wording of the route condition (spec 4.1 rule 5): the
normalized name equals one of the recognized `app.verb` names, or ends in
the same `.verb` suffix bound through an arbitrary object name. -/
def specRouteDecorator (d : DecoratorExpr) : Prop :=
  decoratorName d ∈ recognizedRouteNames ∨
    ∃ v ∈ httpVerbs, hasSuffix (decoratorName d) ("." ++ v) = true

/-- Example input: the decorator expression of `@app.get("/todo")`. -/
def exampleDecorator : DecoratorExpr :=
  .call (.attr (.ident "app") "get")

/-- Example input: a route handler definition decorated `@app.get("/todo")`. -/
def exampleRouteDef : Stmt :=
  .funcDef "todo" [] false [exampleDecorator] .nil

/-- Example input: a body holding a valued return inside a nested block. -/
def exampleHelperBody : StmtList :=
  .cons (.block (.cons (.ret true) .nil)) .nil

/-- Example input: an undecorated helper definition with a nested valued
return. -/
def exampleHelperDef : Stmt :=
  .funcDef "helper" ["x"] false [] exampleHelperBody

/-- Example input: a file with one route handler and one plain function. -/
def exampleProgram : StmtList :=
  .cons exampleRouteDef (.cons exampleHelperDef .nil)

/-- Example input: a method definition with parameters (self, x, y). -/
def exampleInitDef : Stmt :=
  .funcDef "__init__" ["self", "x", "y"] false [] StmtList.nil

/-- Example input: a class body declaring only the method above. -/
def exampleClassBody : StmtList :=
  .cons exampleInitDef .nil

/-- Example input: the parser failure for an unterminated string literal. -/
def exampleError : ParseErrorInfo :=
  ⟨"unterminated string literal", 3, 7⟩

end Scanner

namespace TodoApp

/-- The TodoItem pydantic model of src/task-test/main.py lines 6-9:
`id: int`, `task: str`, `time_estimate: int = None`. -/
structure TodoItem where
  id : Int
  task : String
  time_estimate : Option Int := none
deriving DecidableEq, Repr

/-- The TodoItemResponse pydantic model of src/task-test/main.py lines
11-15: the TodoItem fields plus `completed: bool = False`. -/
structure TodoItemResponse where
  id : Int
  task : String
  time_estimate : Option Int := none
  completed : Bool := false
deriving DecidableEq, Repr

/-- The GET /todo handler `todo` (main.py lines 17-23): returns a fixed
two-element list built in a local variable. -/
def todo : List TodoItemResponse :=
  [⟨1, "Learn FastAPI", none, false⟩, ⟨2, "Build an API", none, false⟩]

/-- The POST /todo handler `add_todo` (main.py lines 25-28): builds a
TodoItemResponse from the input item's fields with completed=False. -/
def add_todo (t : TodoItem) : TodoItemResponse :=
  ⟨t.id, t.task, t.time_estimate, false⟩

/-- The DELETE /todo/(item_id) handler `delete_todo` (main.py lines
30-33): returns a message naming the id. -/
def delete_todo (item_id : Int) : String :=
  "Todo item with id " ++ toString item_id ++ " deleted."

/-- The PUT /todo/(item_id) handler `update_todo` (main.py lines 35-38):
builds a TodoItemResponse from the input item's fields with
completed=False; item_id is not used. -/
def update_todo (_item_id : Int) (t : TodoItem) : TodoItemResponse :=
  ⟨t.id, t.task, t.time_estimate, false⟩

/-- The PATCH /todo/(item_id)/complete handler `complete_todo` (main.py
lines 40-44): returns id=item_id, task="Sample Task", completed=True. -/
def complete_todo (item_id : Int) : TodoItemResponse :=
  ⟨item_id, "Sample Task", none, true⟩

/-- One request to the application: one of the five routes of main.py
with its inputs. -/
inductive Request where
  | getTodo
  | postTodo (t : TodoItem)
  | deleteTodo (item_id : Int)
  | putTodo (item_id : Int) (t : TodoItem)
  | patchComplete (item_id : Int)
deriving DecidableEq, Repr

/-- One response from the application. -/
inductive Response where
  | items (l : List TodoItemResponse)
  | item (r : TodoItemResponse)
  | message (m : String)
deriving DecidableEq, Repr

/-- Dispatch of one request to its handler. The module holds no mutable
state (main.py's only module-level bindings are the immutable app object
and the two model classes), so a handler's result is a function of the
request alone. -/
def handle : Request → Response
  | .getTodo => .items todo
  | .postTodo t => .item (add_todo t)
  | .deleteTodo i => .message (delete_todo i)
  | .putTodo i t => .item (update_todo i t)
  | .patchComplete i => .item (complete_todo i)

/-- Trace semantics: the responses to a sequence of requests, in order. -/
def run (reqs : List Request) : List Response :=
  reqs.map handle

/-- The response to the last request of a trace is its handler's value,
whatever came before. -/
theorem run_last (pre : List Request) (r : Request) :
    (run (pre ++ [r])).getLast? = some (handle r) := by
  simp [run, List.map_append]

end TodoApp

/-- C7: no component keeps internal state across invocations: the
response to a request is its handler's value alone, so the same request
gives the same result after any two histories, and no prior invocation
changes it. -/
theorem TodoApp.handlers_stateless (pre pre₂ : List TodoApp.Request)
    (r : TodoApp.Request) :
    (TodoApp.run (pre ++ [r])).getLast? = some (TodoApp.handle r) ∧
    (TodoApp.run (pre ++ [r])).getLast? = (TodoApp.run (pre₂ ++ [r])).getLast? := by
  refine ⟨TodoApp.run_last pre r, ?_⟩
  rw [TodoApp.run_last pre r, TodoApp.run_last pre₂ r]

/-- C8: GET /todo always answers the fixed two-element list — id 1
"Learn FastAPI" and id 2 "Build an API", both completed=False —
regardless of any prior requests (creations and deletions included). -/
theorem TodoApp.get_todo_frame (pre : List TodoApp.Request) :
    (TodoApp.run (pre ++ [TodoApp.Request.getTodo])).getLast? =
      some (TodoApp.Response.items
        [⟨1, "Learn FastAPI", none, false⟩, ⟨2, "Build an API", none, false⟩]) := by
  rw [TodoApp.run_last pre TodoApp.Request.getTodo]
  rfl

/-- C9: add_todo and update_todo both return a response whose id, task
and time_estimate are copied from the input item and whose completed
field is False; update_todo's item_id path parameter has no effect. -/
theorem TodoApp.add_update_echo (t : TodoApp.TodoItem) (i j : Int) :
    TodoApp.add_todo t = ⟨t.id, t.task, t.time_estimate, false⟩ ∧
    TodoApp.update_todo i t = ⟨t.id, t.task, t.time_estimate, false⟩ ∧
    TodoApp.update_todo i t = TodoApp.update_todo j t ∧
    (TodoApp.add_todo t).completed = false ∧
    (TodoApp.update_todo i t).completed = false :=
  ⟨rfl, rfl, rfl, rfl, rfl⟩

/-- C10: complete_todo returns id=item_id, completed=True, and the
constant task "Sample Task", independent of other inputs or prior
requests. -/
theorem TodoApp.complete_todo_fixed (pre : List TodoApp.Request) (i : Int) :
    TodoApp.complete_todo i = ⟨i, "Sample Task", none, true⟩ ∧
    (TodoApp.complete_todo i).id = i ∧
    (TodoApp.complete_todo i).completed = true ∧
    (TodoApp.complete_todo i).task = "Sample Task" ∧
    (TodoApp.run (pre ++ [TodoApp.Request.patchComplete i])).getLast? =
      some (TodoApp.Response.item ⟨i, "Sample Task", none, true⟩) := by
  refine ⟨rfl, rfl, rfl, rfl, ?_⟩
  rw [TodoApp.run_last pre (TodoApp.Request.patchComplete i)]
  rfl

namespace Scanner

/-- The record built for a definition carries a route-marking decorator
name exactly when the definition's decorator expressions do. -/
theorem record_any_route (n : String) (ps : List String) (a : Bool)
    (decs : List DecoratorExpr) (body : StmtList) :
    (mkFunctionRecord n ps a decs body).decorators.any isRouteName =
      isRouteDecorators decs := by
  simp only [mkFunctionRecord, isRouteDecorators]
  induction decs with
  | nil => rfl
  | cons d ds ih => simp [List.any_cons, ih]

mutual
/-- Every function definition inside one statement contributes exactly
one record to functions or routes. -/
theorem scanStmt_count : (s : Stmt) →
    (scanStmt s).functions.length + (scanStmt s).routes.length = countDefsStmt s
  | .funcDef n ps a decs body => by
      have ih := scanStmts_count body
      cases hd : isRouteDecorators decs <;>
        simp [scanStmt, hd, countDefsStmt] <;> omega
  | .classDef n body => by
      have ih := scanStmts_count body
      simp [scanStmt, countDefsStmt, ih]
  | .block children => by
      have ih := scanStmts_count children
      simp [scanStmt, countDefsStmt, ih]
  | .ret v => by simp [scanStmt, countDefsStmt]
  | .simple => by simp [scanStmt, countDefsStmt]

/-- Every function definition inside a body contributes exactly one
record to functions or routes. -/
theorem scanStmts_count : (l : StmtList) →
    (scanStmts l).functions.length + (scanStmts l).routes.length = countDefs l
  | .nil => by simp [scanStmts, countDefs]
  | .cons s rest => by
      have ih1 := scanStmt_count s
      have ih2 := scanStmts_count rest
      simp [scanStmts, catAppend, countDefs]
      omega
end

mutual
/-- Records filed under functions carry no route-marking decorator name;
records filed under routes carry one. -/
theorem scanStmt_marks : (s : Stmt) →
    (∀ r ∈ (scanStmt s).functions, r.decorators.any isRouteName = false) ∧
    (∀ r ∈ (scanStmt s).routes, r.decorators.any isRouteName = true)
  | .funcDef n ps a decs body => by
      have ih1 := (scanStmts_marks body).1
      have ih2 := (scanStmts_marks body).2
      have hr := record_any_route n ps a decs body
      by_cases hd : isRouteDecorators decs = true
      · constructor <;> intro r hmem
        · simp only [scanStmt, hd, if_true] at hmem
          exact ih1 r hmem
        · simp only [scanStmt, hd, if_true, List.mem_cons] at hmem
          rcases hmem with rfl | hmem
          · rw [hr, hd]
          · exact ih2 r hmem
      · have hd₂ : isRouteDecorators decs = false := by simpa using hd
        constructor <;> intro r hmem
        · simp only [scanStmt, hd₂, Bool.false_eq_true, if_false, List.mem_cons] at hmem
          rcases hmem with rfl | hmem
          · rw [hr, hd₂]
          · exact ih1 r hmem
        · simp only [scanStmt, hd₂, Bool.false_eq_true, if_false] at hmem
          exact ih2 r hmem
  | .classDef n body => by
      have ih := scanStmts_marks body
      simpa [scanStmt] using ih
  | .block children => by
      have ih := scanStmts_marks children
      simpa [scanStmt] using ih
  | .ret v => by simp [scanStmt]
  | .simple => by simp [scanStmt]

/-- Same statement, over a body. -/
theorem scanStmts_marks : (l : StmtList) →
    (∀ r ∈ (scanStmts l).functions, r.decorators.any isRouteName = false) ∧
    (∀ r ∈ (scanStmts l).routes, r.decorators.any isRouteName = true)
  | .nil => by simp [scanStmts]
  | .cons s rest => by
      have ih1 := scanStmt_marks s
      have ih2 := scanStmts_marks rest
      constructor <;> intro r hmem <;>
        simp only [scanStmts, catAppend, List.mem_append] at hmem
      · rcases hmem with h | h
        · exact ih1.1 r h
        · exact ih2.1 r h
      · rcases hmem with h | h
        · exact ih1.2 r h
        · exact ih2.2 r h
end

end Scanner

namespace Scanner

mutual
/-- The has-return scan of one statement is the existence of a valued
return among its descendants. -/
theorem stmtHasValuedReturn_iff : (s : Stmt) →
    (stmtHasValuedReturn s = true ↔ ∃ t ∈ descendantsStmt s, isValuedReturn t = true)
  | .funcDef n ps a d body => by
      have ih := stmtsHaveValuedReturn_iff body
      simp [stmtHasValuedReturn, descendantsStmt, isValuedReturn, ih]
  | .classDef n body => by
      have ih := stmtsHaveValuedReturn_iff body
      simp [stmtHasValuedReturn, descendantsStmt, isValuedReturn, ih]
  | .ret v => by
      simp [stmtHasValuedReturn, descendantsStmt, isValuedReturn]
  | .block children => by
      have ih := stmtsHaveValuedReturn_iff children
      simp [stmtHasValuedReturn, descendantsStmt, isValuedReturn, ih]
  | .simple => by
      simp [stmtHasValuedReturn, descendantsStmt, isValuedReturn]

/-- The has-return scan of a body is the existence of a valued return
among the descendants of its statements. -/
theorem stmtsHaveValuedReturn_iff : (l : StmtList) →
    (stmtsHaveValuedReturn l = true ↔ ∃ t ∈ descendantsList l, isValuedReturn t = true)
  | .nil => by simp [stmtsHaveValuedReturn, descendantsList]
  | .cons s rest => by
      have ih1 := stmtHasValuedReturn_iff s
      have ih2 := stmtsHaveValuedReturn_iff rest
      simp only [stmtsHaveValuedReturn, descendantsList, Bool.or_eq_true, ih1, ih2,
        List.mem_append]
      constructor
      · rintro (⟨t, ht, hv⟩ | ⟨t, ht, hv⟩)
        · exact ⟨t, Or.inl ht, hv⟩
        · exact ⟨t, Or.inr ht, hv⟩
      · rintro ⟨t, ht | ht, hv⟩
        · exact Or.inl ⟨t, ht, hv⟩
        · exact Or.inr ⟨t, ht, hv⟩
end

/-- A name marks a route exactly when it ends in a dot-verb suffix. -/
theorem isRouteName_iff (s : String) :
    isRouteName s = true ↔ ∃ v ∈ httpVerbs, hasSuffix s ("." ++ v) = true := by
  simp [isRouteName, List.any_eq_true]

/-- The spec's wording of the route condition agrees with the
checked route marking of a normalized decorator name. -/
theorem specRouteDecorator_iff (d : DecoratorExpr) :
    specRouteDecorator d ↔ isRouteName (decoratorName d) = true := by
  rw [specRouteDecorator, isRouteName_iff]
  constructor
  · rintro (hmem | hsuf)
    · simp only [recognizedRouteNames, List.mem_cons, List.not_mem_nil, or_false] at hmem
      rcases hmem with h | h | h | h | h <;> rw [h] <;> decide
    · exact hsuf
  · intro h
    exact Or.inr h

/-- Classification of a decorator list agrees with the spec's wording
over its members. -/
theorem isRouteDecorators_iff (decs : List DecoratorExpr) :
    isRouteDecorators decs = true ↔ ∃ d ∈ decs, specRouteDecorator d := by
  rw [isRouteDecorators]
  simp only [List.any_eq_true]
  exact exists_congr fun d => and_congr_right fun _ => (specRouteDecorator_iff d).symm

/-- Every function definition in a class's immediate body yields a
MethodRecord whose parameters drop the leading instance reference. -/
theorem classMethods_complete : (body : StmtList) → ∀ n ps a decs fbody,
    Stmt.funcDef n ps a decs fbody ∈ body.toList →
    ∃ m ∈ classMethods body, m.name = n ∧ m.params = dropSelf ps ∧ m.isAsync = a
  | .nil => by
      intro n ps a decs fbody h
      simp [StmtList.toList] at h
  | .cons s rest => by
      intro n ps a decs fbody h
      simp only [StmtList.toList, List.mem_cons] at h
      rcases h with heq | h
      · subst heq
        exact ⟨⟨n, dropSelf ps, a⟩, by simp [classMethods], rfl, rfl, rfl⟩
      · obtain ⟨m, hm, hprops⟩ := classMethods_complete rest n ps a decs fbody h
        refine ⟨m, ?_, hprops⟩
        cases s <;> simp [classMethods, hm]

end Scanner

namespace Scanner

/-- C1: every function definition, nested ones included, is filed in
exactly one of the catalogue's sequences functions and routes: the two
lengths sum to the number of definitions, records under functions carry
no route-marking decorator while records under routes do, and a route
record is never duplicated into the function list. -/
theorem catalogue_partition (l : StmtList) :
    (scanStmts l).functions.length + (scanStmts l).routes.length = countDefs l ∧
    (∀ r ∈ (scanStmts l).functions, r.decorators.any isRouteName = false) ∧
    (∀ r ∈ (scanStmts l).routes, r.decorators.any isRouteName = true) ∧
    (∀ r ∈ (scanStmts l).routes, r ∉ (scanStmts l).functions) := by
  refine ⟨scanStmts_count l, (scanStmts_marks l).1, (scanStmts_marks l).2, ?_⟩
  intro r hr hf
  have h1 := (scanStmts_marks l).1 r hf
  have h2 := (scanStmts_marks l).2 r hr
  rw [h1] at h2
  exact Bool.false_ne_true h2

/-- C1 witness: on the example file — one route handler, one plain
function — the two sequences partition both definitions and the route
record is absent from the function list. -/
theorem catalogue_partition_witness :
    ((scanStmts exampleProgram).functions.length +
        (scanStmts exampleProgram).routes.length = countDefs exampleProgram) ∧
    (mkFunctionRecord "todo" [] false [exampleDecorator] StmtList.nil ∈
        (scanStmts exampleProgram).routes) ∧
    (mkFunctionRecord "todo" [] false [exampleDecorator] StmtList.nil ∉
        (scanStmts exampleProgram).functions) :=
  ⟨(catalogue_partition exampleProgram).1, by decide,
   (catalogue_partition exampleProgram).2.2.2 _ (by decide)⟩

/-- C2: a definition is classified as a route exactly when some
normalized decorator name equals a recognized `app.verb` name or ends in
the same dot-verb suffix behind an arbitrary object name; the decorators
`@app.get("/x")` (call expression) and bare `@app.get` both normalize to
"app.get" and classify identically as routes, and `@router.post("/items")`
classifies as a route. -/
theorem route_classification :
    (∀ decs : List DecoratorExpr,
        isRouteDecorators decs = true ↔ ∃ d ∈ decs, specRouteDecorator d) ∧
    (∀ n ps a decs body,
        (scanStmt (Stmt.funcDef n ps a decs body)).routes =
          (if isRouteDecorators decs then [mkFunctionRecord n ps a decs body] else [])
            ++ (scanStmts body).routes ∧
        (scanStmt (Stmt.funcDef n ps a decs body)).functions =
          (if isRouteDecorators decs then [] else [mkFunctionRecord n ps a decs body])
            ++ (scanStmts body).functions) ∧
    decoratorName (DecoratorExpr.call (DecoratorExpr.attr (DecoratorExpr.ident "app") "get"))
      = "app.get" ∧
    decoratorName (DecoratorExpr.attr (DecoratorExpr.ident "app") "get") = "app.get" ∧
    isRouteDecorators [DecoratorExpr.call (DecoratorExpr.attr (DecoratorExpr.ident "app") "get")]
      = true ∧
    isRouteDecorators [DecoratorExpr.attr (DecoratorExpr.ident "app") "get"] = true ∧
    isRouteDecorators [DecoratorExpr.call (DecoratorExpr.attr (DecoratorExpr.ident "router") "post")]
      = true := by
  refine ⟨isRouteDecorators_iff, ?_, by decide, by decide, by decide, by decide, by decide⟩
  intro n ps a decs body
  by_cases hd : isRouteDecorators decs = true
  · constructor <;> simp [scanStmt, hd]
  · have hd₂ : isRouteDecorators decs = false := by simpa using hd
    constructor <;> simp [scanStmt, hd₂]

/-- C2 witness: the call-expression decorator of `@app.get("/todo")`
satisfies the spec's route condition, hence classifies as a route. -/
theorem route_classification_witness :
    isRouteDecorators [exampleDecorator] = true :=
  (route_classification.1 [exampleDecorator]).mpr
    ⟨exampleDecorator, by decide, Or.inl (by decide)⟩

/-- C3: when the input fails to parse, the scan fails with the
`SyntaxError` kind carrying the original parser's message and position,
no catalogue is emitted, the invocation exits with status 1 and writes
zero output files. -/
theorem parse_failure_aborts (e : ParseErrorInfo)
    (emit : SourceCatalogue → String) (outPath : String) :
    scanParsed (Except.error e) =
      Except.error (ScanError.parseFailure e.message e.line e.col) ∧
    runTool (Except.error e) emit outPath = (1, []) ∧
    ∀ cat : SourceCatalogue, scanParsed (Except.error e) ≠ Except.ok cat := by
  refine ⟨rfl, rfl, ?_⟩
  intro cat h
  simp [scanParsed] at h

/-- C3 witness: the unterminated-string parser failure makes the tool
exit 1 with no written files, and the scan error carries its message and
position. -/
theorem parse_failure_aborts_witness :
    runTool (Except.error exampleError) (fun _ => "") "tests/test_main.py" = (1, []) ∧
    scanParsed (Except.error exampleError) =
      Except.error (ScanError.parseFailure "unterminated string literal" 3 7) :=
  ⟨(parse_failure_aborts exampleError (fun _ => "") "tests/test_main.py").2.1,
   (parse_failure_aborts exampleError (fun _ => "") "tests/test_main.py").1⟩

/-- C4: a definition's has-return flag is true exactly when some
descendant of its body, at any nesting depth, is a return statement
carrying a value; a bare return (no value) is not a valued return and
never sets the flag. -/
theorem has_return_flag (n : String) (ps : List String) (a : Bool)
    (decs : List DecoratorExpr) (body : StmtList) :
    (mkFunctionRecord n ps a decs body).hasReturn = stmtsHaveValuedReturn body ∧
    (stmtsHaveValuedReturn body = true ↔
      ∃ s ∈ descendantsList body, isValuedReturn s = true) ∧
    isValuedReturn (Stmt.ret false) = false ∧
    isValuedReturn (Stmt.ret true) = true :=
  ⟨rfl, stmtsHaveValuedReturn_iff body, rfl, rfl⟩

/-- C4 witness: a body whose only valued return sits inside a nested
block still sets the record's has-return flag. -/
theorem has_return_flag_witness :
    (mkFunctionRecord "helper" ["x"] false [] exampleHelperBody).hasReturn = true := by
  have h := has_return_flag "helper" ["x"] false [] exampleHelperBody
  rw [h.1]
  exact (h.2.1).mpr
    ⟨Stmt.ret true, by simp [exampleHelperBody, descendantsList, descendantsStmt], rfl⟩

/-- C5: decorator-name normalization is a total function — a bare
identifier yields itself, an attribute access with a bare-identifier base
yields the dotted name and any other base yields the empty string, a call
yields the callee's name, the unsupported shape yields the empty string —
and every decorator of a definition yields a name, so one malformed
decorator never aborts the record. -/
theorem decorator_normalization_total :
    (∀ id, decoratorName (DecoratorExpr.ident id) = id) ∧
    (∀ x y, decoratorName (DecoratorExpr.attr (DecoratorExpr.ident x) y) = x ++ "." ++ y) ∧
    (∀ b y, (∀ id, b ≠ DecoratorExpr.ident id) →
      decoratorName (DecoratorExpr.attr b y) = "") ∧
    (∀ f, decoratorName (DecoratorExpr.call f) = decoratorName f) ∧
    decoratorName DecoratorExpr.unsupported = "" ∧
    (∀ n ps a decs body,
      (mkFunctionRecord n ps a decs body).decorators.length = decs.length) := by
  refine ⟨fun id => rfl, fun x y => rfl, ?_, fun f => rfl, rfl,
    fun n ps a decs body => by simp [mkFunctionRecord]⟩
  intro b y h
  cases b with
  | ident id => exact absurd rfl (h id)
  | attr b₂ y₂ => rfl
  | call f => rfl
  | unsupported => rfl

/-- C5 witness: the unsupported nesting `a.b.c` degrades to the empty
decorator name. -/
theorem decorator_normalization_total_witness :
    decoratorName
      (DecoratorExpr.attr (DecoratorExpr.attr (DecoratorExpr.ident "a") "b") "c") = "" :=
  decorator_normalization_total.2.2.1
    (DecoratorExpr.attr (DecoratorExpr.ident "a") "b") "c"
    (fun _ h => DecoratorExpr.noConfusion h)

/-- C6: scanning a class collects its immediate body's definitions as
MethodRecords whose parameter list drops the first declared parameter
exactly when at least one parameter is declared. -/
theorem method_self_drop :
    (∀ cname cbody, (scanStmt (Stmt.classDef cname cbody)).classes =
      ⟨cname, classMethods cbody⟩ :: (scanStmts cbody).classes) ∧
    (∀ cbody n ps a decs fbody,
      Stmt.funcDef n ps a decs fbody ∈ cbody.toList →
      ∃ m ∈ classMethods cbody, m.name = n ∧ m.params = dropSelf ps ∧ m.isAsync = a) ∧
    dropSelf [] = [] ∧
    (∀ p ps, dropSelf (p :: ps) = ps) := by
  refine ⟨?_, ?_, rfl, fun p ps => rfl⟩
  · intro cname cbody
    simp [scanStmt]
  · intro cbody n ps a decs fbody h
    exact classMethods_complete cbody n ps a decs fbody h

/-- C6 witness: a method `__init__(self, x, y)` in a class body yields a
MethodRecord with parameter list [x, y]. -/
theorem method_self_drop_witness :
    (Stmt.funcDef "__init__" ["self", "x", "y"] false [] StmtList.nil ∈
        exampleClassBody.toList) ∧
    (∃ m ∈ classMethods exampleClassBody, m.name = "__init__" ∧
        m.params = dropSelf ["self", "x", "y"] ∧ m.isAsync = false) ∧
    dropSelf ["self", "x", "y"] = ["x", "y"] :=
  ⟨by simp [exampleClassBody, exampleInitDef, StmtList.toList],
   method_self_drop.2.1 exampleClassBody "__init__" ["self", "x", "y"] false []
     StmtList.nil (by simp [exampleClassBody, exampleInitDef, StmtList.toList]),
   rfl⟩

end Scanner
